import Mathlib

/-!
Shallow embedding of the control-record parser, file-list extractor,
source-file validator and dependency-breakage analyzer of
`daklib/utils.py`, together with theorems settling the claims about them.

Python strings are modelled as Lean `String`; dictionaries as ordered
association lists (insertion order preserved, updates in place); raised
exceptions as `Except` errors.  Patterns that live in `daklib/regexes.py`
(absent from the sources) are modelled from the specification text and
are marked as such in their doc comments.
-/

namespace Dak

/-- Errors raised by the parsing and extraction code.
`missingFields fs` models `ParseChangesError("Missing mandatory field(s) in
changes file (policy 5.5): %s" % missingfields)` carrying the list that was
interpolated; `nameError` models the Python `NameError` hit when a `" ."`
continuation marker appears before any field assigned the `field` variable. -/
inductive DakError where
  | parseChanges (msg : String)
  | invalidDsc (index : Nat)
  | missingFields (fields : List String)
  | noFilesField
  | nameError
deriving Repr, DecidableEq

/-- Whitespace characters relevant inside a single line (no newlines remain
after line splitting). -/
def isWs (c : Char) : Bool := c = ' ' || c = '\t'

/-- Python `str.lower()` on ASCII field names. -/
def lowerStr (s : String) : String := String.mk (s.data.map Char.toLower)

/-- Python `line[:-1]`: drop the final character unconditionally. -/
def dropLastChar (s : String) : String := String.mk s.data.dropLast

/-- Trim whitespace from both ends of a character list. -/
def trimChars (cs : List Char) : List Char :=
  ((cs.dropWhile isWs).reverse.dropWhile isWs).reverse

def splitlinesAux : List Char → List Char → List String
  | acc, [] => if acc.isEmpty then [] else [String.mk acc.reverse]
  | acc, c :: rest =>
    if c = '\n' then String.mk (acc.reverse ++ ['\n']) :: splitlinesAux [] rest
    else splitlinesAux (c :: acc) rest

/-- Python `str.splitlines(True)`: split into lines keeping the `'\n'`
terminators; a final segment without a terminator is kept as-is; the empty
string yields no lines. -/
def splitlinesKeep (s : String) : List String := splitlinesAux [] s.data

/-- The reindexed lines of `parse_deb822`: each kept line with its last
character removed (`indexed_lines[index] = line[:-1]`). -/
def indexLines (s : String) : List String := (splitlinesKeep s).map dropLastChar

/-- Split a character list at the first colon, if any. -/
def splitAtColon : List Char → Option (List Char × List Char)
  | [] => none
  | c :: rest =>
    if c = ':' then some ([], rest)
    else
      match splitAtColon rest with
      | some (k, v) => some (c :: k, v)
      | none => none

/-- Modelled from the spec: the single-line field pattern — a line of shape
`Key: value` with a non-empty key containing no whitespace, a colon
separator, and any whitespace after the colon absorbed before the value
(`daklib/regexes.py` is not among the sources). -/
def re_single_line_field (l : String) : Option (String × String) :=
  match splitAtColon l.data with
  | some (k, v) =>
    if k ≠ [] ∧ k.all (fun c => !isWs c) then
      some (String.mk k, String.mk (v.dropWhile isWs))
    else none
  | none => none

/-- Modelled from the spec: a continuation line begins with whitespace and
contributes its trimmed content (`daklib/regexes.py` is not among the
sources). -/
def re_multi_line_field (l : String) : Option String :=
  match l.data with
  | [] => none
  | c :: _ => if isWs c then some (String.mk (trimChars l.data)) else none

def srchasverAux : List Char → List Char → Option (List Char × List Char)
  | _, [] => none
  | acc, c :: rest =>
    match rest with
    | [] => none
    | c2 :: rest2 =>
      if c = ' ' ∧ c2 = '(' then some (acc.reverse, rest2)
      else srchasverAux (c :: acc) (c2 :: rest2)

/-- Modelled from the spec: the `name (version)` convention on source-like
fields — a non-empty whitespace-free name, one space, and a parenthesized
non-empty version (`daklib/regexes.py` is not among the sources). -/
def re_srchasver (v : String) : Option (String × String) :=
  match srchasverAux [] v.data with
  | none => none
  | some (n, rest) =>
    if rest ≠ [] ∧ rest.getLast? = some ')' then
      let ver := rest.dropLast
      if n ≠ [] ∧ n.all (fun c => !isWs c) ∧ ver ≠ [] ∧
          ver.all (fun c => !isWs c && c ≠ '(' && c ≠ ')') then
        some (String.mk n, String.mk ver)
      else none
    else none

/-- Ordered field mapping: replace the value of an existing key in place,
or append a fresh key at the end (Python dict assignment). -/
def setAssoc {α : Type} (m : List (String × α)) (k : String) (v : α) :
    List (String × α) :=
  match m with
  | [] => [(k, v)]
  | (k0, v0) :: rest => if k0 = k then (k, v) :: rest else (k0, v0) :: setAssoc rest k v

/-- Python dict lookup. -/
def lookupAssoc {α : Type} (m : List (String × α)) (k : String) : Option α :=
  match m with
  | [] => none
  | (k0, v0) :: rest => if k0 = k then some v0 else lookupAssoc rest k

/-- Python `changes[field] += s` on a string-valued dict: append to the
value of `k`.  The key is always present at the call sites inside the scan
(it was inserted when the field was opened). -/
def appendField (m : List (String × String)) (k s : String) : List (String × String) :=
  match m with
  | [] => []
  | (k0, v0) :: rest =>
    if k0 = k then (k0, v0 ++ s) :: rest else (k0, v0) :: appendField rest k s

def fieldKeys {α : Type} (m : List (String × α)) : List String := m.map Prod.fst

/-- The mutable state of the line scan in `parse_deb822`: the `changes`
dict, the `error` accumulator string, the current `field` variable (none
while unassigned) and the `first` flag. -/
structure ScanState where
  changes : List (String × String)
  error : String
  field : Option String
  first : Int
deriving Repr, DecidableEq

/-- Outcome of the scan loop: normal completion carrying the final state,
or one of the exceptions raised from inside the loop. -/
inductive ScanResult where
  | done (st : ScanState)
  | invalidDsc (index : Nat)
  | contFromNothing (line : String)
  | dotBeforeField
deriving Repr, DecidableEq

/-- The line-scanning loop of `parse_deb822` (utils.py lines 124-147):
strict-mode empty-line check, single-line field, literal `" ."` marker,
continuation line, and the error accumulator for everything else. -/
def scan (signing_rules : Int) (n : Nat) (idx : Nat) (lines : List String)
    (st : ScanState) : ScanResult :=
  match lines with
  | [] => .done st
  | l :: rest =>
    let index := idx + 1
    if l = "" ∧ signing_rules = 1 then
      if index ≠ n then .invalidDsc index else .done st
    else
      match re_single_line_field l with
      | some (k, v) =>
        let field := lowerStr k
        scan signing_rules n index rest
          { st with changes := setAssoc st.changes field v, field := some field, first := 1 }
      | none =>
        if l = " ." then
          match st.field with
          | some f =>
            scan signing_rules n index rest
              { st with changes := appendField st.changes f "\n" }
          | none => .dotBeforeField
        else
          match re_multi_line_field l with
          | some content =>
            if st.first = -1 then .contFromNothing l
            else
              match st.field with
              | some f =>
                let st1 :=
                  if st.first = 1 ∧ lookupAssoc st.changes f ≠ some "" then
                    { st with changes := appendField st.changes f "\n" }
                  else st
                scan signing_rules n index rest
                  { st1 with changes := appendField st1.changes f (content ++ "\n"),
                             first := 0 }
              | none => .dotBeforeField
          | none =>
            scan signing_rules n index rest { st with error := st.error ++ l }

/-- The bracket-splitting step of `parse_deb822` (utils.py lines 151-156):
a `source` field matching `name (version)` is rewritten to the name and a
`source-version` sibling is populated. -/
def split_source_version (changes : List (String × String)) : List (String × String) :=
  match lookupAssoc changes "source" with
  | some v =>
    match re_srchasver v with
    | some (name, ver) =>
      setAssoc (setAssoc changes "source" name) "source-version" ver
    | none => changes
  | none => changes

/-- `parse_deb822` (utils.py lines 95-161) on the de-wrapped payload.
Signature verification (`SignedFile`) is an external collaborator: the
payload string stands for its verified contents, which for unsigned input
equal the raw bytes, so `filecontents` records the same string. -/
def parse_deb822 (contents : String) (signing_rules : Int) :
    Except DakError (List (String × String)) :=
  let lines := splitlinesKeep contents
  if lines.length = 0 then .error (.parseChanges "[Empty changes file]")
  else
    let indexed := lines.map dropLastChar
    match scan signing_rules indexed.length 0 indexed ⟨[], "", none, -1⟩ with
    | .done st =>
      let changes := setAssoc st.changes "filecontents" contents
      let changes := split_source_version changes
      if st.error ≠ "" then .error (.parseChanges st.error) else .ok changes
    | .invalidDsc i => .error (.invalidDsc i)
    | .contFromNothing l =>
      .error (.parseChanges
        ("\x27" ++ l ++ "\x27\n [Multi-line field continuing on from nothing?]"))
    | .dotBeforeField => .error .nameError

/-- The tuple `must_keywords` of `parse_changes` (utils.py line 196). -/
def must_keywords : List String :=
  ["Format", "Date", "Source", "Architecture", "Version",
   "Distribution", "Maintainer", "Changes", "Files"]

/-- The mandatory-field loop of `parse_changes` (utils.py lines 199-205),
embedded exactly as written: the `raise` sits inside the loop body, guarded
by `if len(missingfields):`, so it fires as soon as the first missing
keyword has been appended. -/
def checkMustKeywords (changes : List (String × String)) :
    List String → List String → Except DakError Unit
  | _, [] => .ok ()
  | missing, kw :: rest =>
    if lowerStr kw ∈ fieldKeys changes then checkMustKeywords changes missing rest
    else
      let missing1 := missing ++ [kw]
      if missing1.length ≠ 0 then .error (.missingFields missing1)
      else checkMustKeywords changes missing1 rest

/-- `parse_changes` (utils.py lines 166-207), with the file read replaced by
its contents. -/
def parse_changes (content : String) (signing_rules : Int) (dsc_file : Bool) :
    Except DakError (List (String × String)) := do
  let changes ← parse_deb822 content signing_rules
  if !dsc_file then
    checkMustKeywords changes [] must_keywords
  return changes

/-- Python `str.split()` — tokenize on whitespace runs, no empty tokens. -/
def pySplitWsAux : List Char → List Char → List String
  | acc, [] => if acc.isEmpty then [] else [String.mk acc.reverse]
  | acc, c :: rest =>
    if isWs c then
      if acc.isEmpty then pySplitWsAux [] rest
      else String.mk acc.reverse :: pySplitWsAux [] rest
    else pySplitWsAux (c :: acc) rest

def pySplitWs (s : String) : List String := pySplitWsAux [] s.data

/-- Python `str.split(c)` for a single separator character: split at every
occurrence, keeping empty segments (so a trailing separator yields a final
empty segment, and the empty string yields one empty segment). -/
def splitOnCharAux (sep : Char) : List Char → List Char → List String
  | acc, [] => [String.mk acc.reverse]
  | acc, c :: rest =>
    if c = sep then String.mk acc.reverse :: splitOnCharAux sep [] rest
    else splitOnCharAux sep (c :: acc) rest

def splitOnChar (sep : Char) (s : String) : List String := splitOnCharAux sep [] s.data

/-- Characters of `section` before the first slash, when a slash occurs. -/
def beforeSlash : List Char → Option (List Char)
  | [] => none
  | c :: rest =>
    if c = '/' then some []
    else match beforeSlash rest with
      | some pre => some (c :: pre)
      | none => none

/-- `extract_component_from_section` (utils.py lines 81-90): the section is
returned unchanged; the component is the part before the first slash, or
`"main"` when there is no slash. -/
def extract_component_from_section (sect : String) : String × String :=
  match beforeSlash sect.data with
  | some pre => (sect, String.mk pre)
  | none => (sect, "main")

/-- The per-line loop of `build_file_list` (utils.py lines 299-321): stop at
the first empty line, whitespace-tokenize each line into 5 tokens (with
section and priority) or 3 tokens, raising `ParseChangesError(i)` on any
other shape; entries are keyed by filename with silent overwrite. -/
def fileListLoop (includes_section : Bool) (hashname : String)
    (acc : List (String × List (String × String))) :
    List String → Except DakError (List (String × List (String × String)))
  | [] => .ok acc
  | i :: rest =>
    if i = "" then .ok acc
    else
      let s := pySplitWs i
      let parsed : Option (String × String × String × String × String) :=
        if includes_section then
          match s with
          | [md5, size, sect, prio, name] => some (md5, size, sect, prio, name)
          | _ => none
        else
          match s with
          | [md5, size, name] => some (md5, size, "", "", name)
          | _ => none
      match parsed with
      | none => .error (.parseChanges i)
      | some (md5, size, sect, prio, name) =>
        let sect := if sect = "" then "-" else sect
        let prio := if prio = "" then "-" else prio
        let sc := extract_component_from_section sect
        let entry := setAssoc
          [("size", size), ("section", sc.1), ("priority", prio), ("component", sc.2)]
          hashname md5
        fileListLoop includes_section hashname (setAssoc acc name entry) rest

/-- `build_file_list` (utils.py lines 285-323).  The `Format:` validation of
non-dsc records delegates to `daklib/formats.py`, which is not among the
sources; it is external to the file-list extraction itself and is modelled
as accepting. -/
def build_file_list (changes : List (String × String)) (is_a_dsc : Bool)
    (field : String) (hashname : String) :
    Except DakError (List (String × List (String × String))) :=
  match lookupAssoc changes field with
  | none => .error .noFilesField
  | some value =>
    let includes_section := !is_a_dsc && field == "files"
    fileListLoop includes_section hashname [] (splitOnChar '\n' value)

def startsWithAny (ps : List String) (s : String) : Bool :=
  ps.any (fun p => p.data.isPrefixOf s.data)

def existsSubstr (pat : List Char) : List Char → Bool
  | [] => pat.isPrefixOf []
  | c :: rest => pat.isPrefixOf (c :: rest) || existsSubstr pat rest

/-- Does `pat` occur in `cs` at a position at least one character in? -/
def existsSubstrFrom1 (pat : List Char) : List Char → Bool
  | [] => false
  | _ :: rest => existsSubstr pat rest

/-- The classification patterns of the `ftype_lookup` table in
`check_dsc_files` (utils.py lines 229-239) are applied with `re.match`,
i.e. anchored at the start of the suffix only; each is embedded as the
corresponding prefix test. -/
def m_orig_tar_sig (s : String) : Bool :=
  startsWithAny ["orig.tar.gz.asc", "orig.tar.bz2.asc", "orig.tar.xz.asc"] s

def m_orig_tar_gz (s : String) : Bool := startsWithAny ["orig.tar.gz"] s

def m_diff_gz (s : String) : Bool := startsWithAny ["diff.gz"] s

def m_tar_gz (s : String) : Bool := startsWithAny ["tar.gz"] s

def m_debian_tar (s : String) : Bool :=
  startsWithAny ["debian.tar.gz", "debian.tar.bz2", "debian.tar.xz"] s

def m_orig_tar (s : String) : Bool :=
  startsWithAny ["orig.tar.gz", "orig.tar.bz2", "orig.tar.xz"] s

def m_native_tar (s : String) : Bool :=
  startsWithAny ["tar.gz", "tar.bz2", "tar.xz"] s

def m_more_orig_tar_sig (s : String) : Bool :=
  "orig-".data.isPrefixOf s.data &&
    [".tar.gz.asc", ".tar.bz2.asc", ".tar.xz.asc"].any
      (fun e => existsSubstrFrom1 e.data (s.data.drop 5))

def m_more_orig_tar (s : String) : Bool :=
  "orig-".data.isPrefixOf s.data &&
    [".tar.gz", ".tar.bz2", ".tar.xz"].any
      (fun e => existsSubstrFrom1 e.data (s.data.drop 5))

/-- The ordered `ftype_lookup` table of `check_dsc_files` (utils.py lines
229-239): pattern and the occurrence-counter keys it increments. -/
def ftype_lookup : List ((String → Bool) × List String) :=
  [(m_orig_tar_sig, ["orig_tar_sig"]),
   (m_orig_tar_gz, ["orig_tar_gz", "orig_tar"]),
   (m_diff_gz, ["debian_diff"]),
   (m_tar_gz, ["native_tar_gz", "native_tar"]),
   (m_debian_tar, ["debian_tar"]),
   (m_orig_tar, ["orig_tar"]),
   (m_native_tar, ["native_tar"]),
   (m_more_orig_tar_sig, ["more_orig_tar_sig"]),
   (m_more_orig_tar, ["more_orig_tar"])]

def fixedSourceSuffixes : List String :=
  ["orig.tar.gz.asc", "orig.tar.bz2.asc", "orig.tar.xz.asc",
   "orig.tar.gz", "orig.tar.bz2", "orig.tar.xz",
   "debian.tar.gz", "debian.tar.bz2", "debian.tar.xz",
   "tar.gz", "tar.bz2", "tar.xz", "diff.gz", "dsc"]

/-- Does a candidate suffix (the text after some dot) look like a source
suffix: one of the fixed suffixes, or an extra-origin tarball
`orig-<component>.tar.<comp>[.asc]` with a non-empty component. -/
def suffixMatch (g : List Char) : Bool :=
  (fixedSourceSuffixes.any (fun f => f.data = g)) ||
  ("orig-".data.isPrefixOf g &&
    [".tar.gz", ".tar.bz2", ".tar.xz",
     ".tar.gz.asc", ".tar.bz2.asc", ".tar.xz.asc"].any
      (fun e => e.data.isSuffixOf g && g.length ≥ 5 + 1 + e.length))

/-- Find the leftmost dot whose remainder is a plausible source suffix. -/
def findSuffix : List Char → List Char → Option (List Char × List Char)
  | _, [] => none
  | acc, c :: rest =>
    if c = '.' ∧ suffixMatch rest then some (acc.reverse, rest)
    else findSuffix (c :: acc) rest

/-- Modelled from the spec: the overall "is this a plausible source
filename" pattern (`re_issource`, in `daklib/regexes.py`, absent from the
sources).  A plausible source filename is `base_version.suffix` with a
non-empty base, a non-empty version and a recognised source suffix; the
returned suffix is what the classification table is matched against. -/
def re_issource (f : String) : Option String :=
  match findSuffix [] f.data with
  | none => none
  | some (pre, g) =>
    if '_' ∈ (pre.drop 1).dropLast then some (String.mk g) else none

/-- First matching entry of the ordered classification table. -/
def firstMatch : List ((String → Bool) × List String) → String → Option (List String)
  | [], _ => none
  | (m, keys) :: rest, g => if m g then some keys else firstMatch rest g

/-- Python `defaultdict(int)` increment. -/
def incAssoc (m : List (String × Nat)) (k : String) : List (String × Nat) :=
  match m with
  | [] => [(k, 1)]
  | (k0, v) :: rest => if k0 = k then (k0, v + 1) :: rest else (k0, v) :: incAssoc rest k

def getCount (m : List (String × Nat)) (k : String) : Nat :=
  (lookupAssoc m k).getD 0

/-- The per-file loop of `check_dsc_files` (utils.py lines 241-260): an
unrecognised filename appends a rejection and continues; a recognised
filename that matches no table entry appends a rejection and breaks out of
the loop.  Returns the collected messages and the occurrence counters. -/
def dsc_files_loop (dsc_filename : String) :
    List String → List (String × Nat) → List String × List (String × Nat)
  | [], has => ([], has)
  | f :: rest, has =>
    match re_issource f with
    | none =>
      let r := dsc_files_loop dsc_filename rest has
      ((dsc_filename ++ ": " ++ f ++ " in Files field not recognised as source.")
        :: r.1, r.2)
    | some g =>
      match firstMatch ftype_lookup g with
      | some keys =>
        dsc_files_loop dsc_filename rest (keys.foldl incAssoc has)
      | none =>
        ([dsc_filename ++ ": unexpected source file \x27" ++ f ++ "\x27"], has)

/-- Modelled from the spec: the source-format strategy dispatch
(`daklib/srcformats.py`, absent from the sources).  An unknown format
string is tolerated with no violations, and no claim exercises a specific
strategy, so the dispatch contributes no messages. -/
def format_reject_msgs (_dsc_filename : String) (_format : String)
    (_has : List (String × Nat)) : List String := []

/-- `check_dsc_files` (utils.py lines 213-278), taking the `Format:` value
and the file list (in insertion order) directly. -/
def check_dsc_files (dsc_filename : String) (dsc_format : String)
    (dsc_files : List String) : List String :=
  let r := dsc_files_loop dsc_filename dsc_files []
  let multiples :=
    (["orig_tar", "orig_tar_sig", "native_tar", "debian_tar", "debian_diff"].filterMap
      (fun t => if getCount r.2 t > 1 then
        some (dsc_filename ++ ": lists multiple " ++ t) else none))
  r.1 ++ multiples ++ format_reject_msgs dsc_filename dsc_format r.2

/-- One row of the per-architecture binary query in `check_reverse_depends`
(utils.py lines 1051-1065): package, owning source, component, and the raw
`Depends` and `Provides` field values. -/
structure BinRow where
  package : String
  source : String
  component : String
  depends : Option String
  provides : Option String
deriving Repr, DecidableEq

/-- One alternative of a dependency clause: package name, constraint
operator (empty when none) and version (empty when none). -/
structure DepAlt where
  pkg : String
  constraint : String
  version : String
deriving Repr, DecidableEq

/-- Modelled from the spec: one alternative of apt's dependency grammar
(the parser is the external `apt_pkg` library) — a package name optionally
followed by a parenthesized `op version` constraint; an empty package name
or trailing garbage is malformed (`ValueError`). -/
def parse_alt (s : String) : Except String DepAlt :=
  let t := trimChars s.data
  let name := t.takeWhile (fun c => c != ' ' && c != '(')
  if name.isEmpty then .error "malformed"
  else
    let rest := trimChars (t.drop name.length)
    if rest.isEmpty then .ok ⟨String.mk name, "", ""⟩
    else
      match rest with
      | '(' :: inner0 =>
        if inner0.getLast? = some ')' then
          let inner := trimChars inner0.dropLast
          let op := inner.takeWhile (fun c => c != ' ')
          let ver := trimChars (inner.drop op.length)
          if op.isEmpty ∨ ver.isEmpty then .error "malformed"
          else .ok ⟨String.mk name, String.mk op, String.mk ver⟩
        else .error "malformed"
      | _ => .error "malformed"

/-- Modelled from the spec: apt's clause grammar — clauses separated by
commas, alternatives inside a clause separated by `|`; the empty string
parses to no clauses. -/
def parse_depends (s : String) : Except String (List (List DepAlt)) :=
  if (trimChars s.data).isEmpty then .ok []
  else (splitOnChar ',' s).mapM (fun clause => (splitOnChar '|' clause).mapM parse_alt)

/-- The `unsat` counter of the clause check (utils.py lines 1103-1106): the
number of alternatives whose package name is in the consulted removal
list. -/
def unsat_count (removals : List String) (dep : List DepAlt) : Nat :=
  dep.countP (fun alt => decide (alt.pkg ∈ removals))

/-- The breakage test of utils.py line 1107: a clause counts as broken when
every alternative was counted unsatisfied. -/
def clause_broken (removals : List String) (dep : List DepAlt) : Bool :=
  unsat_count removals dep == dep.length

/-- `pp_deps` (utils.py lines 571-576). -/
def joinSep (sep : String) : List String → String
  | [] => ""
  | [x] => x
  | x :: rest => x ++ sep ++ joinSep sep rest

def pp_deps (deps : List DepAlt) : String :=
  joinSep " |" (deps.map (fun a =>
    if a.constraint ≠ "" then
      a.pkg ++ " (" ++ a.constraint ++ " " ++ a.version ++ ")"
    else a.pkg))

/-- Modelled from the spec: `re_build_dep_arch.sub("", build_dep)` strips
bracketed architecture qualifiers from the clause text
(`daklib/regexes.py` is not among the sources). -/
def stripArchAux : Bool → List Char → List Char
  | _, [] => []
  | true, c :: rest =>
    if c = ']' then stripArchAux false rest else stripArchAux true rest
  | false, c :: rest =>
    if c = '[' then stripArchAux true rest else c :: stripArchAux false rest

def stripArchQualifiers (s : String) : String := String.mk (stripArchAux false s.data)

/-- Set-like insertion used for Python `set.add` / `set.update` elements,
keeping first-insertion order. -/
def insertSet (l : List String) (x : String) : List String :=
  if x ∈ l then l else l ++ [x]

/-- `all_broken[source][package].add(architecture)` on nested
`defaultdict`s (utils.py line 1112). -/
def addBrokenBin (ab : List (String × List (String × List String)))
    (src bin arch : String) : List (String × List (String × List String)) :=
  match lookupAssoc ab src with
  | none => ab ++ [(src, [(bin, [arch])])]
  | some inner =>
    match lookupAssoc inner bin with
    | none => setAssoc ab src (inner ++ [(bin, [arch])])
    | some arches => setAssoc ab src (setAssoc inner bin (insertSet arches arch))

/-- The accumulators filled by the first pass over one architecture's rows
(utils.py lines 1065-1084): `sources`, `deps` and the `virtual_packages`
provider counters (`p2c` lives outside the architecture loop). -/
structure ArchScan where
  sources : List (String × String)
  deps : List (String × String)
  virtual_packages : List (String × Nat)
deriving Repr, DecidableEq

/-- Processing of one query row (utils.py lines 1065-1084): record source
and component, keep a non-null `Depends`, and maintain the per-virtual
provider counter — initialised to zero on first sight, incremented only
when the providing package is not in the removal list. -/
def scanBinRow (removals : List String) (p2c : List (String × String))
    (a : ArchScan) (row : BinRow) : List (String × String) × ArchScan :=
  let sources := setAssoc a.sources row.package row.source
  let p2c := setAssoc p2c row.package row.component
  let deps := match row.depends with
    | some d => setAssoc a.deps row.package d
    | none => a.deps
  let vps := match row.provides with
    | none => a.virtual_packages
    | some p =>
      (splitOnChar ',' p).foldl (fun vm chunk =>
        let vp := String.mk (trimChars chunk.data)
        if vp = row.package then vm
        else
          let vm := if (lookupAssoc vm vp).isNone then vm ++ [(vp, 0)] else vm
          if row.package ∈ removals then vm else incAssoc vm vp) a.virtual_packages
  (p2c, ⟨sources, deps, vps⟩)

/-- One architecture of the binary pass (utils.py lines 1042-1113): scan the
rows, expand `removal_set` by the virtual packages whose provider counter
stayed zero, then test every surviving package's clauses — the membership
tests of lines 1092 and 1105 consult `removals`, exactly as the code does. -/
def processArch (removals : List String) (arch : String) (rows : List BinRow)
    (p2c : List (String × String)) (removal_set : List String)
    (ab : List (String × List (String × List String))) (dep_problem : Bool) :
    List (String × String) × List String ×
      List (String × List (String × List String)) × Bool :=
  let pa := rows.foldl (fun (pa : List (String × String) × ArchScan) row =>
    scanBinRow removals pa.1 pa.2 row) (p2c, ⟨[], [], []⟩)
  let p2c := pa.1
  let a := pa.2
  let removal_set := a.virtual_packages.foldl
    (fun rs vc => if vc.2 = 0 then insertSet rs vc.1 else rs) removal_set
  let r := a.deps.foldl (fun (r : _ × Bool) pd =>
    let package := pd.1
    if package ∈ removals then r
    else
      let parsed := match parse_depends pd.2 with
        | .ok d => d
        | .error _ => []
      parsed.foldl (fun (r : _ × Bool) dep =>
        if clause_broken removals dep then
          let component := (lookupAssoc p2c package).getD ""
          let source := (lookupAssoc a.sources package).getD ""
          let source := if component ≠ "main" then source ++ "/" ++ component else source
          (addBrokenBin r.1 source package arch, true)
        else r) r) (ab, dep_problem)
  (p2c, removal_set, r.1, r.2)

/-- One row of the source-level pass (utils.py lines 1163-1190): skip
removed sources, strip architecture qualifiers, parse, and record the
pretty-printed clause for every fully-removed clause.  The component of a
broken source comes from an override query, supplied as `srcComponent`. -/
def processSrcRow (removals : List String) (srcComponent : String → String)
    (ab : List (String × List String)) (dep_problem : Bool)
    (source : String) (build_dep : Option String) :
    List (String × List String) × Bool :=
  if source ∈ removals then (ab, dep_problem)
  else
    let parsed := match build_dep with
      | none => []
      | some bd =>
        match parse_depends (stripArchQualifiers bd) with
        | .ok d => d
        | .error _ => []
    parsed.foldl (fun (r : _ × Bool) dep =>
      if clause_broken removals dep then
        let component := srcComponent source
        let key := if component ≠ "main" then source ++ "/" ++ component else source
        (setAssoc r.1 key (insertSet ((lookupAssoc r.1 key).getD []) (pp_deps dep)), true)
      else r) (ab, dep_problem)

/-- The observable outcome of one analysis run: the returned boolean, the
binary breakage map, the build-dependency breakage map, and the effective
removal set after expansion. -/
structure RevDepResult where
  dep_problem : Bool
  all_broken : List (String × List (String × List String))
  all_broken_src : List (String × List String)
  removal_set : List String
deriving Repr, DecidableEq

/-- `check_reverse_depends` (utils.py lines 1017-1211).  The database is an
external collaborator: `archRows` supplies, per processed architecture, the
rows of the binary query, and `srcRows` the `(source, aggregated
build-depends)` rows of the source query; report rendering is external
output and is not modelled. -/
def check_reverse_depends (removals : List String)
    (archRows : List (String × List BinRow))
    (srcRows : List (String × Option String))
    (srcComponent : String → String) : RevDepResult :=
  let b := archRows.foldl
    (fun (acc : List (String × String) × List String ×
        List (String × List (String × List String)) × Bool) ar =>
      processArch removals ar.1 ar.2 acc.1 acc.2.1 acc.2.2.1 acc.2.2.2)
    ([], removals, [], false)
  let s := srcRows.foldl
    (fun (acc : List (String × List String) × Bool) sr =>
      processSrcRow removals srcComponent acc.1 acc.2 sr.1 sr.2)
    ([], b.2.2.2)
  ⟨s.2, b.2.2.1, s.1, b.2.1⟩

/-- A line that matches none of the three line forms of the record grammar
and is not empty: it is accumulated into the error buffer by the scan. -/
def badLine (l : String) : Bool :=
  l != "" && (re_single_line_field l).isNone && l != " ." &&
    (re_multi_line_field l).isNone

/-- Concatenation of the bad lines of a payload, in order. -/
def concatBad : List String → String
  | [] => ""
  | l :: rest => (if badLine l then l else "") ++ concatBad rest

/-- The expected token count of one file-list line (utils.py lines
305-308): five tokens when section and priority are included, three
otherwise. -/
def goodTokens (includes_section : Bool) (i : String) : Bool :=
  if includes_section then (pySplitWs i).length == 5 else (pySplitWs i).length == 3

/-! ## Helper lemmas -/

theorem string_ne_empty_iff (s : String) : s ≠ "" ↔ s.data ≠ [] := by
  constructor
  · intro h hd
    exact h (String.ext hd)
  · intro h he
    exact h (congrArg String.data he)

theorem append_ne_empty_left (a b : String) (h : a ≠ "") : a ++ b ≠ "" := by
  rw [string_ne_empty_iff] at h ⊢
  rw [String.data_append]
  intro hc
  exact h (List.append_eq_nil.mp hc).1

theorem mem_fieldKeys_setAssoc_self {α : Type} (m : List (String × α)) (k : String)
    (v : α) : k ∈ fieldKeys (setAssoc m k v) := by
  induction m with
  | nil => simp [setAssoc, fieldKeys]
  | cons hd tl ih =>
    obtain ⟨k0, v0⟩ := hd
    by_cases h : k0 = k
    · simp [setAssoc, h, fieldKeys]
    · simp only [setAssoc, h, if_false, fieldKeys, List.map_cons, List.mem_cons]
      exact Or.inr ih

theorem mem_fieldKeys_setAssoc_of_mem {α : Type} (m : List (String × α))
    (k k' : String) (v : α) (h : k' ∈ fieldKeys m) :
    k' ∈ fieldKeys (setAssoc m k v) := by
  induction m with
  | nil => simp [fieldKeys] at h
  | cons hd tl ih =>
    obtain ⟨k0, v0⟩ := hd
    simp only [fieldKeys, List.map_cons, List.mem_cons] at h
    by_cases hk : k0 = k
    · subst hk
      rcases h with h | h
      · simp [setAssoc, fieldKeys, h]
      · simp only [setAssoc, if_true, fieldKeys, List.map_cons, List.mem_cons]
        exact Or.inr h
    · simp only [setAssoc, hk, if_false, fieldKeys, List.map_cons, List.mem_cons]
      rcases h with h | h
      · exact Or.inl h
      · exact Or.inr (ih h)

theorem fieldKeys_appendField (m : List (String × String)) (k s : String) :
    fieldKeys (appendField m k s) = fieldKeys m := by
  induction m with
  | nil => rfl
  | cons hd tl ih =>
    obtain ⟨k0, v0⟩ := hd
    by_cases h : k0 = k
    · simp [appendField, h, fieldKeys]
    · simp only [appendField, h, if_false, fieldKeys, List.map_cons, List.cons_inj_right]
      simpa [fieldKeys] using ih

theorem appendField_appendField (m : List (String × String)) (k a b : String) :
    appendField (appendField m k a) k b = appendField m k (a ++ b) := by
  induction m with
  | nil => rfl
  | cons hd tl ih =>
    obtain ⟨k0, v0⟩ := hd
    by_cases h : k0 = k
    · simp [appendField, h, String.append_assoc]
    · simp [appendField, h, ih]

theorem clause_broken_iff (removals : List String) (dep : List DepAlt) :
    clause_broken removals dep = true ↔ ∀ alt ∈ dep, alt.pkg ∈ removals := by
  unfold clause_broken unsat_count
  rw [beq_iff_eq, List.countP_eq_length]
  constructor
  · intro h alt ha
    simpa using h alt ha
  · intro h alt ha
    simpa using h alt ha

/-! ## Claim theorems -/

/-- C10: a payload whose de-wrapped contents split into zero lines makes
`parse_deb822` raise `ParseChangesError("[Empty changes file]")` instead of
returning an empty record. -/
theorem c10_empty_payload (contents : String) (sr : Int)
    (h : splitlinesKeep contents = []) :
    parse_deb822 contents sr = .error (.parseChanges "[Empty changes file]") := by
  unfold parse_deb822
  rw [h]
  simp

/-- Witness for C10 at the empty byte string. -/
theorem c10_empty_payload_witness :
    splitlinesKeep "" = [] ∧
    parse_deb822 "" 0 = .error (.parseChanges "[Empty changes file]") :=
  ⟨rfl, c10_empty_payload "" 0 rfl⟩

/-- C7: in strict mode an empty line terminates the scan successfully only
when it is the last line of the payload; an earlier empty line raises
`InvalidDscError` carrying that line's 1-based index.  The general part is
stated on the scan loop; the two closed conjuncts run `parse_deb822` on a
payload with a non-terminal and with a terminal empty line. -/
theorem c7_strict_empty_line :
    (∀ (n idx : Nat) (rest : List String) (st : ScanState),
      scan 1 n idx ("" :: rest) st =
        if idx + 1 = n then .done st else .invalidDsc (idx + 1)) ∧
    parse_deb822 "A: 1\n\nB: 2\n" 1 = .error (.invalidDsc 2) ∧
    parse_deb822 "A: 1\n\n" 1 = .ok [("a", "1"), ("filecontents", "A: 1\n\n")] := by
  refine ⟨?_, by rfl, by rfl⟩
  intro n idx rest st
  by_cases h : idx + 1 = n
  · simp [scan, h]
  · simp [scan, h]

/-- C2 (code evaluated at the failing input): a non-dsc record missing all
nine mandatory fields is rejected with an error naming only `Format`, the
first missing keyword, although every one of the nine keywords is absent
from the parsed record — the `raise` of utils.py line 205 sits inside the
loop over `must_keywords`. -/
theorem c2_missing_fields_first_only :
    parse_changes "Fake: 1\n" 0 false = .error (.missingFields ["Format"]) ∧
    parse_deb822 "Fake: 1\n" 0 = .ok [("fake", "1"), ("filecontents", "Fake: 1\n")] ∧
    must_keywords.all
      (fun kw => !((fieldKeys [("fake", "1"), ("filecontents", "Fake: 1\n")]).contains
        (lowerStr kw))) = true ∧
    must_keywords.length = 9 := by
  refine ⟨by rfl, by rfl, by decide, by decide⟩

/-- C1 (code evaluated at the failing input): virtual package `V` is
provided only by `B`; `B` is in the removal set; surviving package `A`
depends solely on `V`.  The analyzer does add `V` to `removal_set`
(utils.py line 1088), but the clause check of line 1105 consults the
original `removals`, so `A`'s dependency is not reported and the call
returns `False` — the expanded set is computed and then never read. -/
theorem c1_virtual_expansion_not_consulted :
    check_reverse_depends ["B"]
        [("amd64", [⟨"A", "srcA", "main", some "V", none⟩,
                    ⟨"B", "srcB", "main", none, some "V"⟩])]
        [] (fun _ => "main")
      = ⟨false, [], [], ["B", "V"]⟩ := by decide

/-- C4: a Depends clause is reported as broken iff every alternative names
a package in the removal set consulted by the code; the two closed
conjuncts run the analyzer on the spec's OR-semantics examples — `b | d`
with only `b` removed is not broken, `b` alone with `b` removed is. -/
theorem c4_or_semantics :
    (∀ (removals : List String) (dep : List DepAlt),
      clause_broken removals dep = true ↔ ∀ alt ∈ dep, alt.pkg ∈ removals) ∧
    check_reverse_depends ["b"]
        [("amd64", [⟨"a", "srca", "main", some "b | d", none⟩])] [] (fun _ => "main")
      = ⟨false, [], [], ["b"]⟩ ∧
    check_reverse_depends ["b"]
        [("amd64", [⟨"a", "srca", "main", some "b", none⟩])] [] (fun _ => "main")
      = ⟨true, [("srca", [("a", ["amd64"])])], [], ["b"]⟩ :=
  ⟨clause_broken_iff, by decide, by decide⟩

/-- C9: a `source` field matching `name (version)` is rewritten to the
name with the version moved to `source-version`; a record whose source
field does not match is kept unchanged.  The closed conjuncts run the full
parser on `Source: foo (1.2-3)` and on a non-matching `Source: foo`. -/
theorem c9_bracket_splitting :
    (∀ (m : List (String × String)) (v name ver : String),
        lookupAssoc m "source" = some v → re_srchasver v = some (name, ver) →
        split_source_version m =
          setAssoc (setAssoc m "source" name) "source-version" ver) ∧
    (∀ (m : List (String × String)) (v : String),
        lookupAssoc m "source" = some v → re_srchasver v = none →
        split_source_version m = m) ∧
    (∀ m : List (String × String),
        lookupAssoc m "source" = none → split_source_version m = m) ∧
    parse_deb822 "Source: foo (1.2-3)\n" 0 =
      .ok [("source", "foo"), ("filecontents", "Source: foo (1.2-3)\n"),
           ("source-version", "1.2-3")] ∧
    parse_deb822 "Source: foo\n" 0 =
      .ok [("source", "foo"), ("filecontents", "Source: foo\n")] := by
  refine ⟨?_, ?_, ?_, by rfl, by rfl⟩
  · intro m v name ver h1 h2
    simp [split_source_version, h1, h2]
  · intro m v h1 h2
    simp [split_source_version, h1, h2]
  · intro m h
    simp [split_source_version, h]

/-- Witness for C9 applying the rewrite rule at a concrete record. -/
theorem c9_bracket_splitting_witness :
    lookupAssoc [("source", "foo (1.2-3)")] "source" = some "foo (1.2-3)" ∧
    re_srchasver "foo (1.2-3)" = some ("foo", "1.2-3") ∧
    split_source_version [("source", "foo (1.2-3)")] =
      setAssoc (setAssoc [("source", "foo (1.2-3)")] "source" "foo")
        "source-version" "1.2-3" :=
  ⟨rfl, rfl, c9_bracket_splitting.1 _ "foo (1.2-3)" "foo" "1.2-3" rfl rfl⟩

/-- C5 is refuted at this input: a field opened with an empty value
(`K:`) followed by a continuation line ` x` yields the value `"x\n"` —
no newline separator is forced when the current value is the empty string
(the guard `changes[field] != ""` of utils.py line 142), while the claim
predicts `"\nx\n"`. -/
theorem c5_counterexample :
    parse_deb822 "K:\n x\n" 0 = .ok [("k", "x\n"), ("filecontents", "K:\n x\n")] ∧
    ("x\n" : String) ≠ "\nx\n" := by
  exact ⟨by rfl, by decide⟩

/-- C5 as amended: processing a continuation line with content `c` while
the current field `f` holds value `v` appends a newline separator before
`c` exactly when the first-continuation flag is set AND `v` is non-empty;
with the flag cleared (all subsequent continuations) the content is
appended directly. -/
theorem c5_first_continuation (sr : Int) (n idx : Nat) (rest : List String)
    (st : ScanState) (f v c l : String)
    (hf : st.field = some f) (hfirst : st.first ≠ -1)
    (h1 : re_single_line_field l = none) (h2 : l ≠ " .")
    (h3 : re_multi_line_field l = some c)
    (hv : lookupAssoc st.changes f = some v) :
    scan sr n idx (l :: rest) st =
      scan sr n (idx + 1) rest
        { st with
          changes := appendField st.changes f
            ((if st.first = 1 ∧ v ≠ "" then "\n" else "") ++ (c ++ "\n")),
          first := 0 } := by
  have hl : l ≠ "" := by
    intro he
    rw [he] at h3
    simp [re_multi_line_field] at h3
  simp only [scan, h1, h3, hf]
  rw [if_neg (fun hc => hl hc.1), if_neg h2, if_neg hfirst]
  rw [hv]
  by_cases hc : st.first = 1 ∧ v ≠ ""
  · have : st.first = 1 ∧ some v ≠ some "" := ⟨hc.1, by simpa using hc.2⟩
    rw [if_pos this, if_pos hc]
    rw [appendField_appendField]
  · have : ¬(st.first = 1 ∧ some v ≠ some "") := by
      intro hx
      exact hc ⟨hx.1, by simpa using hx.2⟩
    rw [if_neg this, if_neg hc]
    rw [String.empty_append, hf]

/-- Witness for C5: with the first-continuation flag set and the field
holding a non-empty value, a separator is inserted. -/
theorem c5_first_continuation_witness :
    (⟨[("k", "a")], "", some "k", 1⟩ : ScanState).field = some "k" ∧
    re_multi_line_field " x" = some "x" ∧
    scan 0 9 0 ([" x"] : List String) ⟨[("k", "a")], "", some "k", 1⟩ =
      scan 0 9 1 []
        { (⟨[("k", "a")], "", some "k", 1⟩ : ScanState) with
          changes := appendField [("k", "a")] "k"
            ((if (⟨[("k", "a")], "", some "k", 1⟩ : ScanState).first = 1 ∧
                ("a" : String) ≠ "" then "\n" else "") ++ ("x" ++ "\n")),
          first := 0 } :=
  ⟨rfl, rfl,
    c5_first_continuation 0 9 0 [] _ "k" "a" "x" " x" rfl (by decide)
      rfl (by decide) rfl rfl⟩

/-- C6 is refuted at this input: `bad` fails the plausible-source pattern
and is rejected, but validation does **not** short-circuit — the two later
tarballs are still classified and produce the `lists multiple native_tar`
message (the loop of utils.py line 243 `continue`s on an unrecognised
name; the `break` of line 260 fires only for recognised names that match
no table entry). -/
theorem c6_counterexample :
    check_dsc_files "d.dsc" "1.0" ["bad", "x_1.tar.gz", "y_1.tar.gz"] =
      ["d.dsc: bad in Files field not recognised as source.",
       "d.dsc: lists multiple native_tar"] := by rfl

/-- C6 as amended: a filename failing the plausible-source pattern is
rejected and the scan continues with the remaining filenames; the
short-circuit happens instead when a filename matches the pattern but no
entry of the classification table. -/
theorem c6_reject_continue_break :
    (∀ (d f : String) (rest : List String) (has : List (String × Nat)),
        re_issource f = none →
        dsc_files_loop d (f :: rest) has =
          ((d ++ ": " ++ f ++ " in Files field not recognised as source.")
              :: (dsc_files_loop d rest has).1,
            (dsc_files_loop d rest has).2)) ∧
    (∀ (d f g : String) (rest : List String) (has : List (String × Nat)),
        re_issource f = some g → firstMatch ftype_lookup g = none →
        dsc_files_loop d (f :: rest) has =
          ([d ++ ": unexpected source file \x27" ++ f ++ "\x27"], has)) := by
  constructor
  · intro d f rest has h
    simp [dsc_files_loop, h]
  · intro d f g rest has h1 h2
    simp [dsc_files_loop, h1, h2]

/-- Witness for C6: an unrecognised filename followed by a further file —
the loop recurses past it. -/
theorem c6_reject_continue_break_witness :
    re_issource "bad" = none ∧
    dsc_files_loop "d.dsc" ["bad", "x_1.tar.gz"] [] =
      (("d.dsc: bad in Files field not recognised as source.")
          :: (dsc_files_loop "d.dsc" ["x_1.tar.gz"] []).1,
        (dsc_files_loop "d.dsc" ["x_1.tar.gz"] []).2) :=
  ⟨rfl, c6_reject_continue_break.1 "d.dsc" "bad" ["x_1.tar.gz"] [] rfl⟩

/-- C8: the first file-list line whose whitespace token count does not
match the expected shape (5 tokens with section and priority, 3 without)
makes the extraction fail with an error naming exactly that raw line; no
aggregation across later lines occurs. -/
theorem c8_first_token_mismatch (inc : Bool) (hashname : String)
    (pre : List String) (l : String) (rest : List String)
    (h1 : ∀ i ∈ pre, i ≠ "" ∧ goodTokens inc i = true)
    (h2 : l ≠ "") (h3 : goodTokens inc l = false) :
    ∀ acc, fileListLoop inc hashname acc (pre ++ l :: rest) =
      .error (.parseChanges l) := by
  unfold goodTokens at h3
  revert h1
  induction pre with
  | nil =>
    intro _ acc
    simp only [List.nil_append, fileListLoop]
    rw [if_neg h2]
    cases inc <;>
      rcases hs : pySplitWs l with _ | ⟨a, _ | ⟨b, _ | ⟨c, _ | ⟨d, _ | ⟨e, _ | ⟨x, t⟩⟩⟩⟩⟩⟩ <;>
      first
        | rfl
        | (rw [hs] at h3; simp at h3)
  | cons i pre' ih =>
    intro h1 acc
    obtain ⟨hne, hgood⟩ := h1 i (List.mem_cons_self i pre')
    have h1' : ∀ j ∈ pre', j ≠ "" ∧ goodTokens inc j = true :=
      fun j hj => h1 j (List.mem_cons_of_mem _ hj)
    simp only [List.cons_append, fileListLoop]
    rw [if_neg hne]
    unfold goodTokens at hgood
    cases inc <;>
      rcases hs : pySplitWs i with _ | ⟨a, _ | ⟨b, _ | ⟨c, _ | ⟨d, _ | ⟨e, _ | ⟨x, t⟩⟩⟩⟩⟩⟩ <;>
      first
        | exact ih h1' _
        | (rw [hs] at hgood; simp at hgood)

/-- Witness for C8: a correct 5-token line followed by a 4-token line —
the extraction fails naming the 4-token line, even though a further
malformed line follows. -/
theorem c8_first_token_mismatch_witness :
    ("abc 12 sec f2" : String) ≠ "" ∧
    goodTokens true "abc 12 sec f2" = false ∧
    fileListLoop true "md5sum" []
        (["abc 12 sec opt f1"] ++ "abc 12 sec f2" :: ["x y"]) =
      .error (.parseChanges "abc 12 sec f2") :=
  ⟨by decide, by rfl,
    c8_first_token_mismatch true "md5sum" ["abc 12 sec opt f1"] "abc 12 sec f2"
      ["x y"] (by decide) (by decide) (by rfl) []⟩

/-- Witness for C4 applying the clause-level iff at a concrete clause. -/
theorem c4_or_semantics_witness :
    clause_broken ["b"] [⟨"b", "", ""⟩] = true :=
  (c4_or_semantics.1 ["b"] [⟨"b", "", ""⟩]).mpr (by
    intro alt ha
    simp at ha
    simp [ha])

theorem ne_empty_of_badLine {l : String} (h : badLine l = true) : l ≠ "" := by
  intro he
  rw [he] at h
  exact absurd h (by decide)

theorem concatBad_cons_not_bad (l : String) (rest : List String)
    (h : badLine l = false) : concatBad (l :: rest) = concatBad rest := by
  simp [concatBad, h, String.empty_append]

theorem concatBad_cons_bad (l : String) (rest : List String)
    (h : badLine l = true) : concatBad (l :: rest) = l ++ concatBad rest := by
  simp [concatBad, h]

theorem concatBad_ne_empty {lines : List String}
    (hbad : ∃ l ∈ lines, badLine l = true) : concatBad lines ≠ "" := by
  induction lines with
  | nil => simp at hbad
  | cons x rest ih =>
    rcases hbad with ⟨l, hl, hbadl⟩
    rcases List.mem_cons.mp hl with h | h
    · subst h
      rw [concatBad_cons_bad _ _ hbadl]
      exact append_ne_empty_left _ _ (ne_empty_of_badLine hbadl)
    · by_cases hb : badLine x = true
      · rw [concatBad_cons_bad _ _ hb]
        exact append_ne_empty_left _ _ (ne_empty_of_badLine hb)
      · rw [concatBad_cons_not_bad _ _ (Bool.eq_false_iff.mpr hb)]
        exact ih ⟨l, h, hbadl⟩

theorem badLine_false_of_single {l : String} {kv : String × String}
    (h : re_single_line_field l = some kv) : badLine l = false := by
  simp [badLine, h]

theorem badLine_false_of_multi {l : String} {c : String}
    (h : re_multi_line_field l = some c) : badLine l = false := by
  simp [badLine, h]

/-- Once a field is open (the `first` flag is not `-1` and the `field`
variable is assigned), the scan in non-strict mode can no longer raise:
it completes, its error buffer grows by exactly the bad lines of the
remaining input, keys of the changes dict are never removed, and every
single-line field among the remaining lines ends up as a key. -/
theorem scan_after_field (sr : Int) (hsr : sr ≠ 1) (n : Nat) :
    ∀ (lines : List String) (idx : Nat) (st : ScanState),
      st.first ≠ -1 → st.field.isSome = true →
      ∃ st' : ScanState,
        scan sr n idx lines st = .done st' ∧
        st'.error = st.error ++ concatBad lines ∧
        (∀ k, k ∈ fieldKeys st.changes → k ∈ fieldKeys st'.changes) ∧
        (∀ l ∈ lines, ∀ kv : String × String, re_single_line_field l = some kv →
          lowerStr kv.1 ∈ fieldKeys st'.changes) := by
  intro lines
  induction lines with
  | nil =>
    intro idx st _ _
    exact ⟨st, rfl, (String.append_empty st.error).symm, fun _ hk => hk, by simp⟩
  | cons l rest ih =>
    intro idx st h1 h2
    obtain ⟨f, hf⟩ := Option.isSome_iff_exists.mp h2
    cases hslf : re_single_line_field l with
    | some kv =>
      obtain ⟨k, v⟩ := kv
      obtain ⟨st', hrun, herr, hmono, hall⟩ :=
        ih (idx + 1)
          { st with changes := setAssoc st.changes (lowerStr k) v,
                    field := some (lowerStr k), first := 1 }
          (by simp) (by simp)
      refine ⟨st', ?_, ?_, ?_, ?_⟩
      · simp only [scan, hslf]
        rw [if_neg (fun hc => hsr hc.2)]
        exact hrun
      · rw [herr, concatBad_cons_not_bad _ _ (badLine_false_of_single hslf)]
      · intro k' hk'
        exact hmono k' (mem_fieldKeys_setAssoc_of_mem _ _ _ _ hk')
      · intro l' hl' kv' hkv'
        rcases List.mem_cons.mp hl' with h | h
        · subst h
          rw [hslf] at hkv'
          obtain rfl : (k, v) = kv' := by injection hkv'
          exact hmono _ (mem_fieldKeys_setAssoc_self _ _ _)
        · exact hall l' h kv' hkv'
    | none =>
      by_cases hdot : l = " ."
      · subst hdot
        obtain ⟨st', hrun, herr, hmono, hall⟩ :=
          ih (idx + 1)
            { st with changes := appendField st.changes f "\n", field := some f } h1
            (by simp)
        refine ⟨st', ?_, ?_, ?_, ?_⟩
        · simp only [scan, hslf, hf]
          rw [if_neg (fun hc => hsr hc.2)]
          exact hrun
        · rw [herr, concatBad_cons_not_bad _ _ (by decide)]
        · intro k' hk'
          refine hmono k' ?_
          simpa [fieldKeys_appendField] using hk'
        · intro l' hl' kv' hkv'
          rcases List.mem_cons.mp hl' with h | h
          · rw [h] at hkv'
            exact absurd hkv' (by simp [re_single_line_field, splitAtColon, isWs])
          · exact hall l' h kv' hkv'
      · cases hmlf : re_multi_line_field l with
        | some c =>
          by_cases hfc : st.first = 1 ∧ lookupAssoc st.changes f ≠ some ""
          · obtain ⟨st', hrun, herr, hmono, hall⟩ :=
              ih (idx + 1)
                { st with
                  changes := appendField (appendField st.changes f "\n") f (c ++ "\n"),
                  field := some f, first := 0 }
                (by simp) (by simp)
            refine ⟨st', ?_, ?_, ?_, ?_⟩
            · simp only [scan, hslf, hmlf, hf]
              rw [if_neg (fun hc => hsr hc.2), if_neg hdot, if_neg h1, if_pos hfc]
              exact hrun
            · rw [herr, concatBad_cons_not_bad _ _ (badLine_false_of_multi hmlf)]
            · intro k' hk'
              refine hmono k' ?_
              simpa [fieldKeys_appendField] using hk'
            · intro l' hl' kv' hkv'
              rcases List.mem_cons.mp hl' with h | h
              · rw [h, hslf] at hkv'
                exact absurd hkv' (by simp)
              · exact hall l' h kv' hkv'
          · obtain ⟨st', hrun, herr, hmono, hall⟩ :=
              ih (idx + 1)
                { st with changes := appendField st.changes f (c ++ "\n"),
                          field := some f, first := 0 }
                (by simp) (by simp)
            refine ⟨st', ?_, ?_, ?_, ?_⟩
            · simp only [scan, hslf, hmlf, hf]
              rw [if_neg (fun hc => hsr hc.2), if_neg hdot, if_neg h1, if_neg hfc, hf]
              exact hrun
            · rw [herr, concatBad_cons_not_bad _ _ (badLine_false_of_multi hmlf)]
            · intro k' hk'
              refine hmono k' ?_
              simpa [fieldKeys_appendField] using hk'
            · intro l' hl' kv' hkv'
              rcases List.mem_cons.mp hl' with h | h
              · rw [h, hslf] at hkv'
                exact absurd hkv' (by simp)
              · exact hall l' h kv' hkv'
        | none =>
          obtain ⟨st', hrun, herr, hmono, hall⟩ :=
            ih (idx + 1) { st with error := st.error ++ l } h1 h2
          refine ⟨st', ?_, ?_, hmono, ?_⟩
          · simp only [scan, hslf, hmlf]
            rw [if_neg (fun hc => hsr hc.2), if_neg hdot]
            exact hrun
          · by_cases hl : l = ""
            · subst hl
              rw [herr, String.append_empty, concatBad_cons_not_bad _ _ (by decide)]
            · have hb : badLine l = true := by
                simp [badLine, hslf, hmlf, bne_iff_ne, hl, hdot]
              rw [herr, concatBad_cons_bad _ _ hb, String.append_assoc]
          · intro l' hl' kv' hkv'
            rcases List.mem_cons.mp hl' with h | h
            · rw [h, hslf] at hkv'
              exact absurd hkv' (by simp)
            · exact hall l' h kv' hkv'

/-- From the initial scan state, provided no continuation line and no
`" ."` marker occurs before the first single-line field, the non-strict
scan completes with the error buffer holding exactly the bad lines. -/
theorem scan_from_start (sr : Int) (hsr : sr ≠ 1) (n : Nat) :
    ∀ (lines : List String) (idx : Nat) (st : ScanState),
      st.first = -1 → st.field = none →
      (∀ l ∈ lines.takeWhile (fun l => (re_single_line_field l).isNone),
        l ≠ " ." ∧ re_multi_line_field l = none) →
      ∃ st' : ScanState,
        scan sr n idx lines st = .done st' ∧
        st'.error = st.error ++ concatBad lines ∧
        (∀ k, k ∈ fieldKeys st.changes → k ∈ fieldKeys st'.changes) ∧
        (∀ l ∈ lines, ∀ kv : String × String, re_single_line_field l = some kv →
          lowerStr kv.1 ∈ fieldKeys st'.changes) := by
  intro lines
  induction lines with
  | nil =>
    intro idx st _ _ _
    exact ⟨st, rfl, (String.append_empty st.error).symm, fun _ hk => hk, by simp⟩
  | cons l rest ih =>
    intro idx st h1 h2 H
    cases hslf : re_single_line_field l with
    | some kv =>
      obtain ⟨k, v⟩ := kv
      obtain ⟨st', hrun, herr, hmono, hall⟩ :=
        scan_after_field sr hsr n rest (idx + 1)
          { st with changes := setAssoc st.changes (lowerStr k) v,
                    field := some (lowerStr k), first := 1 }
          (by simp) (by simp)
      refine ⟨st', ?_, ?_, ?_, ?_⟩
      · simp only [scan, hslf]
        rw [if_neg (fun hc => hsr hc.2)]
        exact hrun
      · rw [herr, concatBad_cons_not_bad _ _ (badLine_false_of_single hslf)]
      · intro k' hk'
        exact hmono k' (mem_fieldKeys_setAssoc_of_mem _ _ _ _ hk')
      · intro l' hl' kv' hkv'
        rcases List.mem_cons.mp hl' with h | h
        · subst h
          rw [hslf] at hkv'
          obtain rfl : (k, v) = kv' := by injection hkv'
          exact hmono _ (mem_fieldKeys_setAssoc_self _ _ _)
        · exact hall l' h kv' hkv'
    | none =>
      have hpred : (re_single_line_field l).isNone = true := by simp [hslf]
      obtain ⟨hdot, hmlf⟩ := H l (by
        rw [@List.takeWhile_cons_of_pos String
          (fun s => (re_single_line_field s).isNone) l rest hpred]
        exact List.mem_cons_self _ _)
      have H' : ∀ l' ∈ rest.takeWhile (fun l => (re_single_line_field l).isNone),
          l' ≠ " ." ∧ re_multi_line_field l' = none := by
        intro l' hl'
        refine H l' ?_
        rw [@List.takeWhile_cons_of_pos String
          (fun s => (re_single_line_field s).isNone) l rest hpred]
        exact List.mem_cons_of_mem _ hl'
      obtain ⟨st', hrun, herr, hmono, hall⟩ :=
        ih (idx + 1) { st with error := st.error ++ l } h1 h2 H'
      refine ⟨st', ?_, ?_, hmono, ?_⟩
      · simp only [scan, hslf, hmlf]
        rw [if_neg (fun hc => hsr hc.2), if_neg hdot]
        exact hrun
      · by_cases hl : l = ""
        · subst hl
          rw [herr, String.append_empty, concatBad_cons_not_bad _ _ (by decide)]
        · have hb : badLine l = true := by
            simp [badLine, hslf, hmlf, bne_iff_ne, hl, hdot]
          rw [herr, concatBad_cons_bad _ _ hb, String.append_assoc]
      · intro l' hl' kv' hkv'
        rcases List.mem_cons.mp hl' with h | h
        · rw [h, hslf] at hkv'
          exact absurd hkv' (by simp)
        · exact hall l' h kv' hkv'

/-- C3 as amended: on a payload whose continuation lines and `" ."`
markers all come after some single-line field (and outside strict mode,
whose empty-line check C7 covers), the parse scans past every bad line
and fails at the end with one error concatenating exactly the bad lines
in order; every single-line field of the payload was entered into the
changes dict before the failure. -/
theorem c3_aggregated_errors (contents : String) (sr : Int) (hsr : sr ≠ 1)
    (hne : splitlinesKeep contents ≠ [])
    (H : ∀ l ∈ (indexLines contents).takeWhile
        (fun l => (re_single_line_field l).isNone),
      l ≠ " ." ∧ re_multi_line_field l = none)
    (hbad : ∃ l ∈ indexLines contents, badLine l = true) :
    parse_deb822 contents sr =
      .error (.parseChanges (concatBad (indexLines contents))) ∧
    concatBad (indexLines contents) ≠ "" ∧
    ∃ st' : ScanState,
      scan sr (indexLines contents).length 0 (indexLines contents)
          ⟨[], "", none, -1⟩ = .done st' ∧
      st'.error = concatBad (indexLines contents) ∧
      ∀ l ∈ indexLines contents, ∀ kv : String × String,
        re_single_line_field l = some kv → lowerStr kv.1 ∈ fieldKeys st'.changes := by
  obtain ⟨st', hrun, herr, hmono, hall⟩ :=
    scan_from_start sr hsr (indexLines contents).length (indexLines contents) 0
      ⟨[], "", none, -1⟩ rfl rfl H
  have herr' : st'.error = concatBad (indexLines contents) := by
    rw [herr]
    exact String.empty_append _
  have hcne := concatBad_ne_empty hbad
  refine ⟨?_, hcne, st', hrun, herr', hall⟩
  have hlen : ¬((splitlinesKeep contents).length = 0) :=
    fun h0 => hne (List.length_eq_zero.mp h0)
  simp only [parse_deb822]
  rw [if_neg hlen]
  rw [show (splitlinesKeep contents).map dropLastChar = indexLines contents from rfl]
  simp only [hrun]
  rw [if_pos (by rw [herr']; exact hcne)]
  rw [herr']

/-- Witness for C3: the spec's aggregation example — three malformed lines
interspersed among valid fields produce one error message listing exactly
those lines in order. -/
theorem c3_aggregated_errors_witness :
    parse_deb822 "A: 1\n!x\nB: 2\n!y\nC: 3\n!z\n" 0 =
      .error (.parseChanges
        (concatBad (indexLines "A: 1\n!x\nB: 2\n!y\nC: 3\n!z\n"))) ∧
    concatBad (indexLines "A: 1\n!x\nB: 2\n!y\nC: 3\n!z\n") = "!x!y!z" :=
  ⟨(c3_aggregated_errors "A: 1\n!x\nB: 2\n!y\nC: 3\n!z\n" 0 (by decide)
      (by decide) (by decide) (by decide)).1, by rfl⟩

/-- C3 is refuted at this input: the payload `badline\n x\n` contains
exactly one bad line (`badline`), yet the parse does not scan to the end
and aggregate — the continuation line ` x` arrives before any field and
raises the continuing-from-nothing error immediately, so the failure
message is not the concatenation of the bad lines. -/
theorem c3_counterexample :
    parse_deb822 "badline\n x\n" 0 =
      .error (.parseChanges
        "\x27 x\x27\n [Multi-line field continuing on from nothing?]") ∧
    concatBad (indexLines "badline\n x\n") = "badline" ∧
    ("\x27 x\x27\n [Multi-line field continuing on from nothing?]" : String)
      ≠ "badline" := by
  refine ⟨by rfl, by rfl, by decide⟩

end Dak
